import Mathlib

/-!
A shallow embedding of the BALAUR framework's resource model and store
(`framework/core/resource.ts`, `framework/store/memory-store.ts`,
`framework/store/storage-factory.ts`, and the provider-backed
`ResourceStore` facade), together with theorems settling the spec claims.

JavaScript collections are modelled explicitly:

* A JS `Record<string, T>` / `Map<string, T>` is an insertion-ordered
  association list `List (String × T)`; `jsGet`, `jsSet`, `jsDelete`
  implement property read, property write / `Map.set` (replace in place
  or append), and `Map.delete` (remove first occurrence, report
  presence).
* Object identity and aliasing matter for the copy-vs-reference claims,
  so mutable collection objects live in an explicit `Heap` indexed by
  numeric addresses; a `Resource` holds the *addresses* of its
  `_properties`, `_links` and `_embedded` objects, exactly as the
  JS object holds references.
* `async` methods that cannot reject are pure functions; fallible paths
  (`StorageFactory.createStorage`, facade operations that may throw
  during lazy initialization) return `Except String`.
-/

/-- JS `record[key]` / `Map.get`: first binding wins (there are never
duplicate keys when the list is built by `jsSet`). -/
def jsGet {α : Type} : List (String × α) → String → Option α
  | [], _ => none
  | (k', v) :: rest, k => if k' = k then some v else jsGet rest k

/-- JS `record[key] = v` / `Map.set(key, v)`: replace the existing
binding in place, else append at the end (insertion order). -/
def jsSet {α : Type} : List (String × α) → String → α → List (String × α)
  | [], k, v => [(k, v)]
  | (k', v') :: rest, k, v =>
      if k' = k then (k, v) :: rest else (k', v') :: jsSet rest k v

/-- JS `Map.delete(key)`: remove the binding if present and report
whether it existed. -/
def jsDelete {α : Type} : List (String × α) → String → List (String × α) × Bool
  | [], _ => ([], false)
  | (k', v) :: rest, k =>
      if k' = k then (rest, true)
      else
        let r := jsDelete rest k
        ((k', v) :: r.1, r.2)

/-- JS `String.prototype.startsWith`: prefix test on the character
sequences. -/
def strStartsWith (s pre : String) : Bool :=
  pre.data.isPrefixOf s.data

/-! ## The heap of mutable JS collection objects -/

/-- Heap addresses (JS object references). -/
abbrev Addr := Nat

/-- Property values: opaque JSON-compatible payloads (`unknown` in the
source); their internal structure is irrelevant to every claim. -/
abbrev Val := String

/-- `Link` interface from `framework/core/resource.ts`. -/
structure Link where
  href : String
  method : Option String := none
  title : Option String := none
  templated : Option Bool := none
deriving DecidableEq

/-- A hypermedia resource (`class Resource`).  `_properties`, `_links`
and `_embedded` are JS object *references*: addresses into the heap
below, mirroring the fact that the class fields hold mutable objects. -/
structure Resource where
  _type : String
  _id : String
  _properties : Addr
  _links : Addr
  _embedded : Addr
  _state : Option String
deriving DecidableEq

/-- The mutable-object heap.  Each kind of collection object the code
allocates gets its contents map; a single allocation counter `next`
serves all of them (an address is used in at most one component). -/
structure Heap where
  /-- contents of `Record<string, unknown>` objects (property bags) -/
  recs : Addr → List (String × Val)
  /-- contents of `Record<string, Link>` objects (link maps) -/
  lrecs : Addr → List (String × Link)
  /-- contents of `Resource[]` array objects (embedded sequences) -/
  arrs : Addr → List Resource
  /-- contents of `Record<string, Resource[]>` objects (embedded maps),
  holding the addresses of the per-relation arrays -/
  erecs : Addr → List (String × Addr)
  next : Addr

def emptyHeap : Heap :=
  { recs := fun _ => [], lrecs := fun _ => [], arrs := fun _ => [],
    erecs := fun _ => [], next := 0 }

/-- Overwrite the contents of a property-bag object (models any caller
mutation of such an object, e.g. adding or deleting keys). -/
def writeRec (h : Heap) (a : Addr) (m : List (String × Val)) : Heap :=
  { h with recs := fun x => if x = a then m else h.recs x }

def writeLRec (h : Heap) (a : Addr) (m : List (String × Link)) : Heap :=
  { h with lrecs := fun x => if x = a then m else h.lrecs x }

def writeArr (h : Heap) (a : Addr) (l : List Resource) : Heap :=
  { h with arrs := fun x => if x = a then l else h.arrs x }

def writeERec (h : Heap) (a : Addr) (m : List (String × Addr)) : Heap :=
  { h with erecs := fun x => if x = a then m else h.erecs x }

/-- Allocate a fresh property-bag object with the given contents
(JS object literal / spread). -/
def allocRec (h : Heap) (m : List (String × Val)) : Addr × Heap :=
  (h.next,
   { h with
       recs := fun x => if x = h.next then m else h.recs x
       next := h.next + 1 })

def allocLRec (h : Heap) (m : List (String × Link)) : Addr × Heap :=
  (h.next,
   { h with
       lrecs := fun x => if x = h.next then m else h.lrecs x
       next := h.next + 1 })

def allocArr (h : Heap) (l : List Resource) : Addr × Heap :=
  (h.next,
   { h with
       arrs := fun x => if x = h.next then l else h.arrs x
       next := h.next + 1 })

def allocERec (h : Heap) (m : List (String × Addr)) : Addr × Heap :=
  (h.next,
   { h with
       erecs := fun x => if x = h.next then m else h.erecs x
       next := h.next + 1 })

/-! ## Resource methods (`framework/core/resource.ts`) -/

/-- The constructor's `config` argument.  `properties`/`links` are
optional object references (the constructor stores the caller's object
without copying); `none` models an absent field, for which the
constructor allocates a fresh empty object (`config.properties || {}`;
note a *given* empty object is truthy in JS and is kept). -/
structure ResourceConfig where
  type : String
  id : String
  properties : Option Addr := none
  links : Option Addr := none
  state : Option String := none

/-- `new Resource(config)`.  Allocates `{}` for absent
`properties`/`links` and always allocates a fresh `{}` for
`_embedded`. -/
def Resource.construct (h : Heap) (config : ResourceConfig) : Resource × Heap :=
  let pa := match config.properties with
    | some a => (a, h)
    | none => allocRec h []
  let la := match config.links with
    | some a => (a, pa.2)
    | none => allocLRec pa.2 []
  let ea := allocERec la.2 []
  ({ _type := config.type, _id := config.id, _properties := pa.1,
     _links := la.1, _embedded := ea.1, _state := config.state }, ea.2)

def Resource.getType (r : Resource) : String := r._type

def Resource.getId (r : Resource) : String := r._id

def Resource.getState (r : Resource) : Option String := r._state

def Resource.setState (r : Resource) (state : String) : Resource :=
  { r with _state := some state }

def Resource.getProperty (h : Heap) (r : Resource) (key : String) : Option Val :=
  jsGet (h.recs r._properties) key

def Resource.setProperty (h : Heap) (r : Resource) (key : String) (v : Val) : Heap :=
  writeRec h r._properties (jsSet (h.recs r._properties) key v)

/-- `getProperties(): { ...this._properties }` — allocates a fresh
object holding a copy of the contents and returns its reference. -/
def Resource.getProperties (h : Heap) (r : Resource) : Addr × Heap :=
  allocRec h (h.recs r._properties)

def Resource.addLink (h : Heap) (r : Resource) (rel : String) (link : Link) : Heap :=
  writeLRec h r._links (jsSet (h.lrecs r._links) rel link)

def Resource.getLink (h : Heap) (r : Resource) (rel : String) : Option Link :=
  jsGet (h.lrecs r._links) rel

/-- `getLinks(): { ...this._links }` — fresh copy, see
`Resource.getProperties`. -/
def Resource.getLinks (h : Heap) (r : Resource) : Addr × Heap :=
  allocLRec h (h.lrecs r._links)

/-- `clearLinks(): this._links = {}` — rebinds the field to a freshly
allocated empty object. -/
def Resource.clearLinks (h : Heap) (r : Resource) : Resource × Heap :=
  let la := allocLRec h []
  ({ r with _links := la.1 }, la.2)

/-- `addEmbedded(rel, resource)`: create `this._embedded[rel] = []` if
absent, then `push` onto that array (in place). -/
def Resource.addEmbedded (h : Heap) (r : Resource) (rel : String)
    (resource : Resource) : Heap :=
  match jsGet (h.erecs r._embedded) rel with
  | none =>
      let aa := allocArr h []
      let h1 := writeERec aa.2 r._embedded (jsSet (aa.2.erecs r._embedded) rel aa.1)
      writeArr h1 aa.1 (h1.arrs aa.1 ++ [resource])
  | some a => writeArr h a (h.arrs a ++ [resource])

/-- `getEmbedded(rel): return this._embedded[rel]` — returns the stored
array *reference* (no copy). -/
def Resource.getEmbedded (h : Heap) (r : Resource) (rel : String) : Option Addr :=
  jsGet (h.erecs r._embedded) rel

/-- The record built by `toJSON()`.  The record itself is a fresh
object, but its `properties` and `_links` fields hold the internal
object references, and `_embedded` (when present) holds the internal
embedded-map reference. -/
structure ResourceJSON where
  type : String
  id : String
  propertiesRef : Addr
  linksRef : Addr
  embeddedRef : Option Addr
  state : Option String
deriving DecidableEq

/-- `toJSON()`: always emits `type`, `id`, `properties`, `_links`;
emits `_embedded` only when `Object.keys(this._embedded).length > 0`
and `state` only when `this._state` is truthy (a set-but-empty string
is falsy and omitted). -/
def Resource.toJSON (h : Heap) (r : Resource) : ResourceJSON :=
  { type := r._type, id := r._id,
    propertiesRef := r._properties,
    linksRef := r._links,
    embeddedRef := if (h.erecs r._embedded).isEmpty then none else some r._embedded,
    state := match r._state with
      | some s => if s = "" then none else some s
      | none => none }

/-! ## MemoryStore (`framework/store/memory-store.ts`) -/

/-- In-memory provider: a JS `Map<string, Resource>` plus the optional
namespace (`options.namespace || ""`; the field is called `namespace`
in the source, a reserved word here). -/
structure MemoryStore where
  store : List (String × Resource)
  nspace : String
deriving DecidableEq

/-- `new MemoryStore(options)`. -/
def MemoryStore.construct (options : Option String) : MemoryStore :=
  { store := [], nspace := options.getD "" }

/-- `namespaceKey(key)`: prepend `namespace + ":"` when the namespace
string is truthy (non-empty). -/
def MemoryStore.namespaceKey (s : MemoryStore) (key : String) : String :=
  if s.nspace = "" then key else s.nspace ++ ":" ++ key

def MemoryStore.create (s : MemoryStore) (key : String) (value : Resource) :
    MemoryStore :=
  { s with store := jsSet s.store (s.namespaceKey key) value }

/-- `get`: `this.store.get(...) || null` — a stored `Resource` object is
always truthy, so this is exactly the `Map` lookup. -/
def MemoryStore.get (s : MemoryStore) (key : String) : Option Resource :=
  jsGet s.store (s.namespaceKey key)

/-- `list(prefix)`: scan all entries in insertion order, keeping values
whose key starts with the namespaced prefix. -/
def MemoryStore.list (s : MemoryStore) (pre : String) : List Resource :=
  (s.store.filter (fun e => strStartsWith e.1 (s.namespaceKey pre))).map Prod.snd

def MemoryStore.update (s : MemoryStore) (key : String) (value : Resource) :
    MemoryStore :=
  { s with store := jsSet s.store (s.namespaceKey key) value }

/-- `delete`: `Map.delete` — removes the entry and returns whether it
existed. -/
def MemoryStore.delete (s : MemoryStore) (key : String) : MemoryStore × Bool :=
  let r := jsDelete s.store (s.namespaceKey key)
  ({ s with store := r.1 }, r.2)

/-- `close()`: nothing to do for the in-memory store. -/
def MemoryStore.close (s : MemoryStore) : MemoryStore := s

/-! ## StorageFactory (`framework/store/storage-factory.ts`) -/

/-- A `StorageProvider<Resource>` instance.  The in-memory provider is
modelled in full; the Deno KV provider and caller-supplied custom
providers perform external I/O outside this repository's code, so they
are opaque handles here — no theorem runs an operation through them. -/
inductive ProviderInstance where
  | memory (ms : MemoryStore)
  | denoKv (handle : Nat)
  | custom (handle : Nat)
deriving DecidableEq

def ProviderInstance.isMemory : ProviderInstance → Bool
  | .memory _ => true
  | _ => false

/-- `StorageConfig`: `type` is a string because the factory's `switch`
has a `default` branch for unsupported kinds; `namespace` comes from
`ResourceStorageOptions`. -/
structure StorageConfig where
  type : String
  path : Option String := none
  customProvider : Option ProviderInstance := none
  nspace : Option String := none
deriving DecidableEq

/-- `StorageFactory.createStorage(config)`: dispatch on `config.type`;
`"custom"` without a provider and unknown kinds throw. The `"deno-kv"`
branch opens a Deno KV database (external I/O), modelled as producing an
opaque handle. -/
def StorageFactory.createStorage (config : StorageConfig) :
    Except String ProviderInstance :=
  if config.type = "memory" then
    .ok (.memory (MemoryStore.construct config.nspace))
  else if config.type = "deno-kv" then
    .ok (.denoKv 0)
  else if config.type = "custom" then
    match config.customProvider with
    | none => .error "Custom storage provider required for type custom"
    | some p => .ok p
  else
    .error ("Unsupported storage type: " ++ config.type)

/-! ## ResourceStore facade (provider-backed revision of
`resource-store.ts`) -/

/-- Provider dispatch for each `StorageProvider` operation.  Only the
in-memory provider has modelled semantics; the opaque providers are
returned unchanged (operations on them are never the subject of a
theorem). -/
def ProviderInstance.create (p : ProviderInstance) (key : String)
    (value : Resource) : ProviderInstance :=
  match p with
  | .memory ms => .memory (ms.create key value)
  | other => other

def ProviderInstance.get (p : ProviderInstance) (key : String) : Option Resource :=
  match p with
  | .memory ms => ms.get key
  | _ => none

def ProviderInstance.list (p : ProviderInstance) (pre : String) : List Resource :=
  match p with
  | .memory ms => ms.list pre
  | _ => []

def ProviderInstance.update (p : ProviderInstance) (key : String)
    (value : Resource) : ProviderInstance :=
  match p with
  | .memory ms => .memory (ms.update key value)
  | other => other

def ProviderInstance.delete (p : ProviderInstance) (key : String) :
    ProviderInstance × Bool :=
  match p with
  | .memory ms =>
      let r := ms.delete key
      (.memory r.1, r.2)
  | other => (other, false)

def ProviderInstance.close (p : ProviderInstance) : ProviderInstance :=
  match p with
  | .memory ms => .memory ms.close
  | other => other

/-- The facade.  `storage` is declared with a definite-assignment
assertion (`storage!`) in the source: it is unset (`none`) until the
first initialization. -/
structure ResourceStore where
  storage : Option ProviderInstance
  isInitialized : Bool
  storageConfig : StorageConfig
deriving DecidableEq

/-- `constructor(storageConfig?)`: default to memory storage when no
config is provided; performs no I/O and no validation. -/
def ResourceStore.mkStore (storageConfig : Option StorageConfig) : ResourceStore :=
  { storage := none, isInitialized := false,
    storageConfig := storageConfig.getD { type := "memory" } }

/-- `initialize()` in the source: no-op when already initialized, else
run the factory on the stored config and mark initialized.  A factory
error propagates. -/
def ResourceStore.initStore (s : ResourceStore) : Except String ResourceStore :=
  if s.isInitialized then .ok s
  else
    (StorageFactory.createStorage s.storageConfig).map fun p =>
      { s with storage := some p, isInitialized := true }

def ResourceStore.ensureInitialized (s : ResourceStore) :
    Except String ResourceStore :=
  if s.isInitialized then .ok s else s.initStore

def createMapKey (type id : String) : String := type ++ ":" ++ id

/-- `createResource(resource)`: ensure initialized, then delegate with
key `type:id`.  Reading the unset `storage!` field would be a runtime
error; a lemma below shows that branch is unreachable after a
successful `ensureInitialized`. -/
def ResourceStore.createResource (s : ResourceStore) (resource : Resource) :
    Except String ResourceStore := do
  let s1 ← s.ensureInitialized
  match s1.storage with
  | some p =>
      .ok { s1 with
              storage := some (p.create
                (createMapKey resource.getType resource.getId) resource) }
  | none => .error "storage not initialized"

def ResourceStore.getResource (s : ResourceStore) (type id : String) :
    Except String (ResourceStore × Option Resource) := do
  let s1 ← s.ensureInitialized
  match s1.storage with
  | some p => .ok (s1, p.get (createMapKey type id))
  | none => .error "storage not initialized"

def ResourceStore.updateResource (s : ResourceStore) (resource : Resource) :
    Except String ResourceStore := do
  let s1 ← s.ensureInitialized
  match s1.storage with
  | some p =>
      .ok { s1 with
              storage := some (p.update
                (createMapKey resource.getType resource.getId) resource) }
  | none => .error "storage not initialized"

def ResourceStore.deleteResource (s : ResourceStore) (type id : String) :
    Except String (ResourceStore × Bool) := do
  let s1 ← s.ensureInitialized
  match s1.storage with
  | some p =>
      let r := p.delete (createMapKey type id)
      .ok ({ s1 with storage := some r.1 }, r.2)
  | none => .error "storage not initialized"

/-- `listResources(type)`: the list prefix is `type + ":"`. -/
def ResourceStore.listResources (s : ResourceStore) (type : String) :
    Except String (ResourceStore × List Resource) := do
  let s1 ← s.ensureInitialized
  match s1.storage with
  | some p => .ok (s1, p.list (type ++ ":"))
  | none => .error "storage not initialized"

/-- `close()`: when initialized, close the provider and clear the flag;
the `storage` field keeps the released handle. -/
def ResourceStore.close (s : ResourceStore) : ResourceStore :=
  if s.isInitialized then
    { s with storage := s.storage.map ProviderInstance.close,
             isInitialized := false }
  else s

/-! ## Well-formedness predicates

States reachable through the facade satisfy these; theorems that need
them take them as hypotheses, discharged concretely in the witnesses. -/

/-- Every `Map` entry of the in-memory provider is stored under the
namespaced `type:id` key of its value (facade writes only build such
keys). -/
@[reducible] def MemoryStore.WFKeys (ms : MemoryStore) : Prop :=
  ∀ e ∈ ms.store, e.1 = ms.namespaceKey (createMapKey e.2.getType e.2.getId)

/-- `Map` keys are pairwise distinct (`jsSet` never duplicates). -/
@[reducible] def MemoryStore.NodupKeys (ms : MemoryStore) : Prop :=
  (ms.store.map Prod.fst).Nodup

/-- The facade's provider slot is absent or holds the in-memory
provider. -/
def memStorageOk : Option ProviderInstance → Bool
  | none => true
  | some (.memory _) => true
  | some _ => false

/-- A facade state on the in-memory backend: configured for `"memory"`,
provider slot absent or in-memory, and (definite assignment of
`storage!`) the slot is filled whenever the initialized flag is set. -/
@[reducible] def ResourceStore.MemBacked (s : ResourceStore) : Prop :=
  s.storageConfig.type = "memory" ∧ memStorageOk s.storage = true ∧
    (!s.isInitialized || s.storage.isSome) = true

/-- `true` when no character of the string is the key separator `:`. -/
def colonFree (s : String) : Bool :=
  s.data.all (fun c => c != ':')

/-! ## Helper lemmas -/
theorem strStartsWith_iff (s pre : String) :
    strStartsWith s pre = true ↔ pre.data <+: s.data := by
  simp [strStartsWith]

theorem jsGet_jsSet_self {α : Type} (m : List (String × α)) (k : String) (v : α) :
    jsGet (jsSet m k v) k = some v := by
  induction m with
  | nil => simp [jsSet, jsGet]
  | cons e rest ih =>
      obtain ⟨k', v'⟩ := e
      by_cases h : k' = k
      · simp [jsSet, h, jsGet]
      · simp [jsSet, h, jsGet, ih]

theorem jsSet_jsSet_self {α : Type} (m : List (String × α)) (k : String) (v : α) :
    jsSet (jsSet m k v) k v = jsSet m k v := by
  induction m with
  | nil => simp [jsSet]
  | cons e rest ih =>
      obtain ⟨k', v'⟩ := e
      by_cases h : k' = k
      · simp [jsSet, h]
      · simp [jsSet, h, ih]

theorem jsDelete_of_jsGet_none {α : Type} (m : List (String × α)) (k : String)
    (h : jsGet m k = none) : jsDelete m k = (m, false) := by
  induction m with
  | nil => simp [jsDelete]
  | cons e rest ih =>
      obtain ⟨k', v'⟩ := e
      by_cases hk : k' = k
      · simp [jsGet, hk] at h
      · simp [jsGet, hk] at h
        simp [jsDelete, hk, ih h]

theorem jsDelete_snd_of_jsGet_some {α : Type} (m : List (String × α)) (k : String)
    (v : α) (h : jsGet m k = some v) : (jsDelete m k).2 = true := by
  induction m with
  | nil => simp [jsGet] at h
  | cons e rest ih =>
      obtain ⟨k', v'⟩ := e
      by_cases hk : k' = k
      · simp [jsDelete, hk]
      · simp [jsGet, hk] at h
        simp [jsDelete, hk, ih h]

theorem jsGet_none_of_key_not_mem {α : Type} (m : List (String × α)) (k : String)
    (h : k ∉ m.map Prod.fst) : jsGet m k = none := by
  induction m with
  | nil => simp [jsGet]
  | cons e rest ih =>
      obtain ⟨k', v'⟩ := e
      simp only [List.map_cons, List.mem_cons] at h
      push_neg at h
      simp [jsGet, fun hk : k' = k => h.1 hk.symm, ih h.2, Ne.symm h.1]

theorem jsGet_jsDelete_self {α : Type} (m : List (String × α)) (k : String)
    (hnd : (m.map Prod.fst).Nodup) : jsGet (jsDelete m k).1 k = none := by
  induction m with
  | nil => simp [jsDelete, jsGet]
  | cons e rest ih =>
      obtain ⟨k', v'⟩ := e
      simp only [List.map_cons, List.nodup_cons] at hnd
      by_cases hk : k' = k
      · subst hk
        simpa [jsDelete] using jsGet_none_of_key_not_mem rest k' hnd.1
      · simp [jsDelete, hk, jsGet, ih hnd.2]

theorem memStorageOk_inv {o : Option ProviderInstance}
    (h : memStorageOk o = true) :
    o = none ∨ ∃ ms, o = some (ProviderInstance.memory ms) := by
  match o with
  | none => exact .inl rfl
  | some (.memory ms) => exact .inr ⟨ms, rfl⟩
  | some (.denoKv k) => simp [memStorageOk] at h
  | some (.custom k) => simp [memStorageOk] at h

theorem colonFree_iff (s : String) : colonFree s = true ↔ ':' ∉ s.data := by
  simp only [colonFree, List.all_eq_true, bne_iff_ne, ne_eq]
  exact ⟨fun h hmem => h ':' hmem rfl, fun h c hc hceq => h (hceq ▸ hc)⟩

/-- Core key-shape fact: for colon-free `t` and `ty`, the key
`ty ++ ":" ++ i` starts with `t ++ ":"` exactly when `ty = t`. -/
theorem prefixKeyChars (t : List Char) :
    ∀ (ty i : List Char), ':' ∉ t → ':' ∉ ty →
      (((t ++ [':']) <+: (ty ++ ':' :: i)) ↔ ty = t) := by
  induction t with
  | nil =>
      intro ty i _ hty
      cases ty with
      | nil => simp
      | cons b ty' =>
          simp only [List.nil_append, List.cons_append, List.cons_prefix_cons]
          constructor
          · rintro ⟨rfl, -⟩
            exact absurd (List.mem_cons_self _ _) hty
          · intro h
            cases h
  | cons a t' ih =>
      intro ty i ht hty
      simp only [List.mem_cons, not_or] at ht
      cases ty with
      | nil =>
          simp only [List.nil_append, List.cons_append, List.cons_prefix_cons]
          constructor
          · rintro ⟨rfl, -⟩
            exact absurd rfl ht.1
          · intro h
            cases h
      | cons b ty' =>
          simp only [List.mem_cons, not_or] at hty
          simp only [List.cons_append, List.cons_prefix_cons]
          rw [ih ty' i ht.2 hty.2]
          constructor
          · rintro ⟨rfl, rfl⟩
            rfl
          · intro h
            cases h
            exact ⟨rfl, rfl⟩

theorem colon_data : (":" : String).data = [':'] := rfl

theorem mapKey_data (ty i : String) :
    (createMapKey ty i).data = ty.data ++ ':' :: i.data := by
  simp [createMapKey, String.data_append]

/-- The `MemoryStore.list` filter test, evaluated on a well-formed key:
under colon-free types it is exactly a type-equality test. -/
theorem strStartsWith_namespaceKey (ms : MemoryStore) (t ty i : String)
    (ht : colonFree t = true) (hty : colonFree ty = true) :
    strStartsWith (ms.namespaceKey (createMapKey ty i))
        (ms.namespaceKey (t ++ ":")) = (ty == t) := by
  rw [Bool.eq_iff_iff, beq_iff_eq, strStartsWith_iff]
  rw [colonFree_iff] at ht hty
  have core : (t ++ ":").data <+: (createMapKey ty i).data ↔ ty = t := by
    rw [mapKey_data, String.data_append, colon_data]
    constructor
    · exact fun h => String.ext ((prefixKeyChars t.data ty.data i.data ht hty).mp h)
    · exact fun h => (prefixKeyChars t.data ty.data i.data ht hty).mpr (by rw [h])
  unfold MemoryStore.namespaceKey
  by_cases hns : ms.nspace = ""
  · simp only [hns, if_pos]
    exact core
  · simp only [if_neg hns]
    rw [String.data_append (ms.nspace ++ ":"), String.data_append (ms.nspace ++ ":"),
      List.prefix_append_right_inj]
    exact core

theorem ensureInitialized_of_init (s : ResourceStore)
    (h : s.isInitialized = true) : s.ensureInitialized = .ok s := by
  simp [ResourceStore.ensureInitialized, h]

/-- On a memory-backed facade state, `ensureInitialized` succeeds and
yields an initialized state holding an in-memory provider: the current
one when already initialized, a fresh one otherwise. -/
theorem ensureInitialized_memBacked (s : ResourceStore) (hmem : s.MemBacked) :
    ∃ ms, s.ensureInitialized =
      .ok { s with storage := some (.memory ms), isInitialized := true } := by
  obtain ⟨hc, hok, hdef⟩ := hmem
  cases hinit : s.isInitialized with
  | true =>
      rw [hinit] at hdef
      simp only [Bool.not_true, Bool.false_or] at hdef
      rcases memStorageOk_inv hok with hnone | ⟨ms, hms⟩
      · rw [hnone] at hdef
        simp at hdef
      · refine ⟨ms, ?_⟩
        have heta : { s with storage := some (.memory ms), isInitialized := true } = s := by
          rw [← hms, ← hinit]
        rw [heta]
        exact ensureInitialized_of_init s hinit
  | false =>
      refine ⟨MemoryStore.construct s.storageConfig.nspace, ?_⟩
      simp [ResourceStore.ensureInitialized, hinit, ResourceStore.initStore,
        StorageFactory.createStorage, hc, Except.map]

/-! ## Claim theorems -/

/-- C10: constructing a `ResourceStore` with no storage configuration is
identical to constructing it with the in-memory configuration
`{ type: "memory" }`; its (lazy) initialization instantiates a fresh
in-memory provider, so every subsequent operation is served by that
provider. -/
theorem mkStore_default_is_memory :
    ResourceStore.mkStore none = ResourceStore.mkStore (some { type := "memory" }) ∧
    (ResourceStore.mkStore none).initStore =
      .ok { storage := some (.memory { store := [], nspace := "" }),
            isInitialized := true,
            storageConfig := { type := "memory" } } :=
  ⟨rfl, rfl⟩

/-- C7 counterexample: constructing a store with an unsupported backend
kind succeeds without any error (no validation happens at construction,
and initialization is lazy), and the "Unsupported storage type" error
surfaces exactly at the first CRUD call — the failure IS deferred to the
first CRUD call, contrary to the claim. -/
theorem unsupported_kind_error_deferred_to_first_call :
    (ResourceStore.mkStore (some { type := "bogus" })).isInitialized = false ∧
    (ResourceStore.mkStore (some { type := "bogus" })).storage = none ∧
    (ResourceStore.mkStore (some { type := "bogus" })).getResource "a" "b" =
      .error "Unsupported storage type: bogus" :=
  ⟨rfl, rfl, rfl⟩

/-- C7 (amended): construction never validates; the factory — run by
`initialize`, whether called explicitly or lazily by the first
operation — fails for every unsupported backend kind, fails for
`"custom"` without a supplied provider, and for `"custom"` with a
provider returns exactly that provider. -/
theorem factory_failure_semantics (cfg : StorageConfig) (p : ProviderInstance)
    (hk1 : cfg.type ≠ "memory") (hk2 : cfg.type ≠ "deno-kv")
    (hk3 : cfg.type ≠ "custom") :
    StorageFactory.createStorage cfg =
      .error ("Unsupported storage type: " ++ cfg.type) ∧
    (ResourceStore.mkStore (some cfg)).initStore =
      .error ("Unsupported storage type: " ++ cfg.type) ∧
    (∀ t i, (ResourceStore.mkStore (some cfg)).getResource t i =
      .error ("Unsupported storage type: " ++ cfg.type)) ∧
    StorageFactory.createStorage { cfg with type := "custom", customProvider := none } =
      .error "Custom storage provider required for type custom" ∧
    StorageFactory.createStorage { cfg with type := "custom", customProvider := some p } =
      .ok p := by
  have hfac : StorageFactory.createStorage cfg =
      .error ("Unsupported storage type: " ++ cfg.type) := by
    simp [StorageFactory.createStorage, hk1, hk2, hk3]
  have hinit : (ResourceStore.mkStore (some cfg)).initStore =
      .error ("Unsupported storage type: " ++ cfg.type) := by
    simp [ResourceStore.initStore, ResourceStore.mkStore, hfac, Except.map]
  refine ⟨hfac, hinit, ?_, ?_, ?_⟩
  · intro t i
    have hens : (ResourceStore.mkStore (some cfg)).ensureInitialized =
        .error ("Unsupported storage type: " ++ cfg.type) := by
      rw [show (ResourceStore.mkStore (some cfg)).ensureInitialized =
            (ResourceStore.mkStore (some cfg)).initStore from rfl, hinit]
    simp only [ResourceStore.getResource, hens]
    rfl
  · simp [StorageFactory.createStorage]
  · simp [StorageFactory.createStorage]

/-- C7 witness: the amended theorem applied to a concrete unsupported
configuration and a concrete custom provider. -/
theorem factory_failure_semantics_witness :
    StorageFactory.createStorage { type := "sqlite" } =
      .error ("Unsupported storage type: " ++ "sqlite") ∧
    (ResourceStore.mkStore (some { type := "sqlite" })).initStore =
      .error ("Unsupported storage type: " ++ "sqlite") ∧
    (∀ t i, (ResourceStore.mkStore (some { type := "sqlite" })).getResource t i =
      .error ("Unsupported storage type: " ++ "sqlite")) ∧
    StorageFactory.createStorage
        { ({ type := "sqlite" } : StorageConfig) with
            type := "custom", customProvider := none } =
      .error "Custom storage provider required for type custom" ∧
    StorageFactory.createStorage
        { ({ type := "sqlite" } : StorageConfig) with
            type := "custom", customProvider := some (.custom 7) } =
      .ok (.custom 7) :=
  factory_failure_semantics { type := "sqlite" } (.custom 7)
    (by decide) (by decide) (by decide)

/-- C4 counterexample: a resource whose state has been *set* (to the
empty string, which `getState` duly returns) serializes without a
`state` field, because `toJSON` tests JS truthiness, not presence. -/
theorem toJSON_omits_set_empty_state :
    ((Resource.construct emptyHeap
        { type := "t", id := "1", state := some "" }).1).getState = some "" ∧
    (((Resource.construct emptyHeap
        { type := "t", id := "1", state := some "" }).1).toJSON
      (Resource.construct emptyHeap
        { type := "t", id := "1", state := some "" }).2).state = none :=
  ⟨rfl, rfl⟩

/-- C4 (amended): serialization always includes `type`, `id`,
`properties`, `links`; it includes `embedded` iff the embedded mapping
is non-empty, and includes `state` iff the state is set *to a non-empty
string* (a state set to `""` is falsy in JS and omitted). -/
theorem toJSON_field_presence (h : Heap) (r : Resource) :
    (r.toJSON h).type = r.getType ∧
    (r.toJSON h).id = r.getId ∧
    (r.toJSON h).propertiesRef = r._properties ∧
    (r.toJSON h).linksRef = r._links ∧
    ((r.toJSON h).embeddedRef = some r._embedded ↔ h.erecs r._embedded ≠ []) ∧
    ((r.toJSON h).embeddedRef = none ↔ h.erecs r._embedded = []) ∧
    (∀ st, (r.toJSON h).state = some st ↔ r.getState = some st ∧ st ≠ "") := by
  refine ⟨rfl, rfl, rfl, rfl, ?_, ?_, ?_⟩
  · cases hE : h.erecs r._embedded with
    | nil => simp [Resource.toJSON, hE]
    | cons e rest => simp [Resource.toJSON, hE]
  · cases hE : h.erecs r._embedded with
    | nil => simp [Resource.toJSON, hE]
    | cons e rest => simp [Resource.toJSON, hE]
  · intro st
    cases hs : r._state with
    | none => simp [Resource.toJSON, Resource.getState, hs]
    | some s0 =>
        by_cases h0 : s0 = ""
        · subst h0
          simp [Resource.toJSON, Resource.getState, hs]
          exact fun h => h.symm
        · simp [Resource.toJSON, Resource.getState, hs, h0]
          rintro rfl
          exact h0

/-- C3 counterexample: `getEmbedded` hands out the internal array by
reference — after a parent with one embedded child is built, pushing
onto the array returned by `getEmbedded` changes what a subsequent
`getEmbedded` observes (one child before, two after). -/
theorem getEmbedded_exposes_internal_array :
    (let pc := Resource.construct emptyHeap { type := "order", id := "1" }
     let cc := Resource.construct pc.2 { type := "item", id := "2" }
     let h3 := Resource.addEmbedded cc.2 pc.1 "children" cc.1
     let h4 := writeArr h3 6 (h3.arrs 6 ++ [cc.1])
     Resource.getEmbedded h3 pc.1 "children" = some 6 ∧
     h3.arrs 6 = [cc.1] ∧
     Resource.getEmbedded h4 pc.1 "children" = some 6 ∧
     h4.arrs 6 = [cc.1, cc.1] ∧
     h4.arrs 6 ≠ h3.arrs 6) := by
  refine ⟨rfl, rfl, rfl, rfl, ?_⟩
  decide

/-- C3 (amended): `getProperties` and `getLinks` return copies (see the
C8 theorem), but `getEmbedded` returns the internal sequence by
reference — a push through the returned reference is visible to every
subsequent observation — and `toJSON` shares the internal properties
and links objects rather than copying them. -/
theorem getEmbedded_alias_mutation_visible (h : Heap) (r : Resource)
    (rel : String) (a : Addr) (x : Resource)
    (ha : Resource.getEmbedded h r rel = some a) :
    Resource.getEmbedded (writeArr h a (h.arrs a ++ [x])) r rel = some a ∧
    (writeArr h a (h.arrs a ++ [x])).arrs a = h.arrs a ++ [x] ∧
    (r.toJSON h).propertiesRef = r._properties ∧
    (r.toJSON h).linksRef = r._links := by
  refine ⟨?_, by simp [writeArr], rfl, rfl⟩
  simpa [Resource.getEmbedded, writeArr] using ha

/-- C3 witness: the amended theorem applied to the concrete
parent/child scenario. -/
theorem getEmbedded_alias_mutation_visible_witness :
    (let pc := Resource.construct emptyHeap { type := "order", id := "1" }
     let cc := Resource.construct pc.2 { type := "item", id := "2" }
     let h3 := Resource.addEmbedded cc.2 pc.1 "children" cc.1
     Resource.getEmbedded (writeArr h3 6 (h3.arrs 6 ++ [cc.1])) pc.1 "children" =
       some 6 ∧
     (writeArr h3 6 (h3.arrs 6 ++ [cc.1])).arrs 6 = h3.arrs 6 ++ [cc.1] ∧
     (pc.1.toJSON h3).propertiesRef = pc.1._properties ∧
     (pc.1.toJSON h3).linksRef = pc.1._links) :=
  getEmbedded_alias_mutation_visible _ _ "children" 6 _ rfl

/-- C8: `getProperties()` and `getLinks()` return copies — for a
resource whose collection objects are live (allocated below the heap
frontier), overwriting the freshly returned copies with any contents
whatsoever leaves every subsequent `getProperty` and `getLink` answer
unchanged. -/
theorem getProperties_getLinks_return_copies (h : Heap) (r : Resource)
    (hp : r._properties < h.next) (hl : r._links < h.next)
    (pm : List (String × Val)) (lm : List (String × Link)) (k rel : String) :
    (let pr := Resource.getProperties h r
     let lr := Resource.getLinks pr.2 r
     let hm := writeLRec (writeRec lr.2 pr.1 pm) lr.1 lm
     Resource.getProperty hm r k = Resource.getProperty h r k ∧
     Resource.getLink hm r rel = Resource.getLink h r rel) := by
  have hp1 : r._properties ≠ h.next := Nat.ne_of_lt hp
  have hl2 : r._links ≠ h.next + 1 := Nat.ne_of_lt (Nat.lt_succ_of_lt hl)
  constructor
  · simp only [Resource.getProperty, Resource.getProperties, Resource.getLinks,
      allocRec, allocLRec, writeRec, writeLRec]
    simp [hp1]
  · simp only [Resource.getLink, Resource.getProperties, Resource.getLinks,
      allocRec, allocLRec, writeRec, writeLRec]
    simp [hl2]

/-- C8 witness: the copy theorem applied to a freshly constructed
resource and concrete overwrites of both returned copies. -/
theorem getProperties_getLinks_return_copies_witness :
    (let rc := Resource.construct emptyHeap { type := "task", id := "1" }
     let pr := Resource.getProperties rc.2 rc.1
     let lr := Resource.getLinks pr.2 rc.1
     let hm := writeLRec (writeRec lr.2 pr.1 [("name", "hacked")]) lr.1
       [("self", { href := "/evil" })]
     Resource.getProperty hm rc.1 "name" = Resource.getProperty rc.2 rc.1 "name" ∧
     Resource.getLink hm rc.1 "self" = Resource.getLink rc.2 rc.1 "self") :=
  getProperties_getLinks_return_copies _ _ (by decide) (by decide)
    [("name", "hacked")] [("self", { href := "/evil" })] "name" "self"

theorem ok_bind {ε α β : Type} (a : α) (f : α → Except ε β) :
    (Except.ok a >>= f : Except ε β) = f a := rfl

theorem error_bind {ε α β : Type} (e : ε) (f : α → Except ε β) :
    ((Except.error e : Except ε α) >>= f) = Except.error e := rfl

theorem MemoryStore.get_create_self (ms : MemoryStore) (k : String) (r : Resource) :
    (ms.create k r).get k = some r := by
  simp only [MemoryStore.get, MemoryStore.create, MemoryStore.namespaceKey]
  exact jsGet_jsSet_self _ _ _

theorem MemoryStore.update_update_self (ms : MemoryStore) (k : String) (r : Resource) :
    (ms.update k r).update k r = ms.update k r := by
  simp only [MemoryStore.update, MemoryStore.namespaceKey]
  rw [jsSet_jsSet_self]

/-- Evaluation of each facade operation once `ensureInitialized` has
produced an initialized state holding the in-memory provider. -/
theorem createResource_eq (s s1 : ResourceStore) (ms : MemoryStore)
    (he : s.ensureInitialized = .ok s1)
    (hsto : s1.storage = some (.memory ms)) (r : Resource) :
    s.createResource r =
      .ok { s1 with storage := some (.memory
              (ms.create (createMapKey r.getType r.getId) r)) } := by
  simp only [ResourceStore.createResource, he, ok_bind, hsto,
    ProviderInstance.create]

theorem getResource_eq (s s1 : ResourceStore) (ms : MemoryStore)
    (he : s.ensureInitialized = .ok s1)
    (hsto : s1.storage = some (.memory ms)) (t i : String) :
    s.getResource t i = .ok (s1, ms.get (createMapKey t i)) := by
  simp only [ResourceStore.getResource, he, ok_bind, hsto, ProviderInstance.get]

theorem updateResource_eq (s s1 : ResourceStore) (ms : MemoryStore)
    (he : s.ensureInitialized = .ok s1)
    (hsto : s1.storage = some (.memory ms)) (r : Resource) :
    s.updateResource r =
      .ok { s1 with storage := some (.memory
              (ms.update (createMapKey r.getType r.getId) r)) } := by
  simp only [ResourceStore.updateResource, he, ok_bind, hsto,
    ProviderInstance.update]

theorem deleteResource_eq (s s1 : ResourceStore) (ms : MemoryStore)
    (he : s.ensureInitialized = .ok s1)
    (hsto : s1.storage = some (.memory ms)) (t i : String) :
    s.deleteResource t i =
      .ok ({ s1 with storage := some (.memory (ms.delete (createMapKey t i)).1) },
           (ms.delete (createMapKey t i)).2) := by
  simp only [ResourceStore.deleteResource, he, ok_bind, hsto,
    ProviderInstance.delete]

theorem listResources_eq (s s1 : ResourceStore) (ms : MemoryStore)
    (he : s.ensureInitialized = .ok s1)
    (hsto : s1.storage = some (.memory ms)) (t : String) :
    s.listResources t = .ok (s1, ms.list (t ++ ":")) := by
  simp only [ResourceStore.listResources, he, ok_bind, hsto,
    ProviderInstance.list]

/-- C1: on a memory-backed store, for every resource with non-empty
type and id, `createResource` succeeds and a subsequent
`getResource(type, id)` returns a stored resource with identical type,
id and properties (indeed the very same resource reference). -/
theorem createResource_then_getResource (s : ResourceStore) (r : Resource)
    (hmem : s.MemBacked) (ht : r.getType ≠ "") (hi : r.getId ≠ "") :
    ∃ s1 s2 rr, s.createResource r = .ok s1 ∧
      s1.getResource r.getType r.getId = .ok (s2, some rr) ∧
      rr.getType = r.getType ∧ rr.getId = r.getId ∧
      rr._properties = r._properties := by
  obtain ⟨ms, he⟩ := ensureInitialized_memBacked s hmem
  refine ⟨{ s with
              storage := some (.memory
                (ms.create (createMapKey r.getType r.getId) r))
              isInitialized := true },
          { s with
              storage := some (.memory
                (ms.create (createMapKey r.getType r.getId) r))
              isInitialized := true }, r, ?_, ?_, rfl, rfl, rfl⟩
  · exact createResource_eq s _ ms he rfl r
  · have hg := getResource_eq
      { s with
          storage := some (.memory
            (ms.create (createMapKey r.getType r.getId) r))
          isInitialized := true }
      { s with
          storage := some (.memory
            (ms.create (createMapKey r.getType r.getId) r))
          isInitialized := true }
      (ms.create (createMapKey r.getType r.getId) r)
      (ensureInitialized_of_init _ rfl) rfl r.getType r.getId
    rw [hg, MemoryStore.get_create_self]

/-- C1 witness: the roundtrip theorem applied to a freshly constructed
default store and a concrete resource. -/
theorem createResource_then_getResource_witness :
    ∃ s1 s2 rr,
      (ResourceStore.mkStore none).createResource
        { _type := "task", _id := "1", _properties := 0, _links := 1,
          _embedded := 2, _state := none } = .ok s1 ∧
      s1.getResource "task" "1" = .ok (s2, some rr) ∧
      rr.getType = "task" ∧ rr.getId = "1" ∧ rr._properties = 0 :=
  createResource_then_getResource (ResourceStore.mkStore none)
    { _type := "task", _id := "1", _properties := 0, _links := 1,
      _embedded := 2, _state := none }
    ⟨rfl, rfl, rfl⟩ (by decide) (by decide)

/-- C9: `updateResource` is idempotent — on a memory-backed store,
applying the same update twice produces exactly the same resulting
store state (hence the same `getResource`/`listResources` views) as
applying it once. -/
theorem updateResource_idempotent (s : ResourceStore) (r : Resource)
    (hmem : s.MemBacked) :
    (s.updateResource r >>= fun s1 => s1.updateResource r) =
      s.updateResource r := by
  obtain ⟨ms, he⟩ := ensureInitialized_memBacked s hmem
  have h1 := updateResource_eq s _ ms he rfl r
  rw [h1, ok_bind]
  show ({ s with
            storage := some (.memory
              (ms.update (createMapKey r.getType r.getId) r))
            isInitialized := true } : ResourceStore).updateResource r = _
  have h2 := updateResource_eq
    { s with
        storage := some (.memory
          (ms.update (createMapKey r.getType r.getId) r))
        isInitialized := true }
    { s with
        storage := some (.memory
          (ms.update (createMapKey r.getType r.getId) r))
        isInitialized := true }
    (ms.update (createMapKey r.getType r.getId) r)
    (ensureInitialized_of_init _ rfl) rfl r
  rw [h2, MemoryStore.update_update_self]

/-- C9 witness: idempotence applied to a fresh default store and a
concrete resource. -/
theorem updateResource_idempotent_witness :
    ((ResourceStore.mkStore none).updateResource
        { _type := "task", _id := "1", _properties := 0, _links := 1,
          _embedded := 2, _state := none } >>= fun s1 =>
      s1.updateResource
        { _type := "task", _id := "1", _properties := 0, _links := 1,
          _embedded := 2, _state := none }) =
      (ResourceStore.mkStore none).updateResource
        { _type := "task", _id := "1", _properties := 0, _links := 1,
          _embedded := 2, _state := none } :=
  updateResource_idempotent (ResourceStore.mkStore none)
    { _type := "task", _id := "1", _properties := 0, _links := 1,
      _embedded := 2, _state := none }
    ⟨rfl, rfl, rfl⟩

/-- C5: on the in-memory backend, deleting a stored key returns `true`
and makes a subsequent `getResource` return absent, while deleting a
missing key returns `false` and leaves the store state unchanged
(literally the same facade state). -/
theorem deleteResource_semantics (s : ResourceStore) (ms : MemoryStore)
    (hsto : s.storage = some (.memory ms)) (hinit : s.isInitialized = true)
    (hnd : ms.NodupKeys) (type id : String) :
    (∀ r, ms.get (createMapKey type id) = some r →
        ∃ s1, s.deleteResource type id = .ok (s1, true) ∧
          s1.getResource type id = .ok (s1, none)) ∧
    (ms.get (createMapKey type id) = none →
        s.deleteResource type id = .ok (s, false)) := by
  have he : s.ensureInitialized = .ok s := ensureInitialized_of_init s hinit
  have hd := deleteResource_eq s s ms he hsto type id
  constructor
  · intro r hr
    refine ⟨{ s with storage := some (.memory (ms.delete (createMapKey type id)).1) },
            ?_, ?_⟩
    · rw [hd]
      have : (ms.delete (createMapKey type id)).2 = true := by
        simp only [MemoryStore.delete] at hr ⊢
        exact jsDelete_snd_of_jsGet_some _ _ r hr
      rw [this]
    · have hg := getResource_eq
        { s with storage := some (.memory (ms.delete (createMapKey type id)).1) }
        { s with storage := some (.memory (ms.delete (createMapKey type id)).1) }
        (ms.delete (createMapKey type id)).1
        (ensureInitialized_of_init _ hinit) rfl type id
      rw [hg]
      have : ((ms.delete (createMapKey type id)).1).get (createMapKey type id) = none := by
        simp only [MemoryStore.delete, MemoryStore.get, MemoryStore.namespaceKey]
        exact jsGet_jsDelete_self _ _ hnd
      rw [this]
  · intro hnone
    rw [hd]
    have hdel : ms.delete (createMapKey type id) = (ms, false) := by
      simp only [MemoryStore.delete, MemoryStore.get] at hnone ⊢
      rw [jsDelete_of_jsGet_none _ _ hnone]
    rw [hdel]
    rw [show ({ s with storage := some (.memory ms) } : ResourceStore) = s by
      rw [← hsto]]

/-- C5 witness: both branches applied to a concrete initialized store
holding one resource. -/
theorem deleteResource_semantics_witness :
    (let r0 : Resource := ⟨"task", "1", 0, 1, 2, none⟩
     let s0 : ResourceStore :=
       { storage := some (.memory { store := [("task:1", r0)], nspace := "" }),
         isInitialized := true, storageConfig := { type := "memory" } }
     (∃ s1, s0.deleteResource "task" "1" = .ok (s1, true) ∧
        s1.getResource "task" "1" = .ok (s1, none)) ∧
     s0.deleteResource "task" "9" = .ok (s0, false)) :=
  ⟨(deleteResource_semantics _
      { store := [("task:1", ⟨"task", "1", 0, 1, 2, none⟩)], nspace := "" }
      rfl rfl (by decide) "task" "1").1
      ⟨"task", "1", 0, 1, 2, none⟩ rfl,
   (deleteResource_semantics _
      { store := [("task:1", ⟨"task", "1", 0, 1, 2, none⟩)], nspace := "" }
      rfl rfl (by decide) "task" "9").2 rfl⟩

theorem close_isInitialized_false (s : ResourceStore) :
    (s.close).isInitialized = false := by
  unfold ResourceStore.close
  cases hi : s.isInitialized <;> simp [hi]

theorem close_storageConfig (s : ResourceStore) :
    (s.close).storageConfig = s.storageConfig := by
  unfold ResourceStore.close
  cases hi : s.isInitialized <;> simp [hi]

/-- C6: `close()` is not terminal — it clears the initialized flag, and
every subsequent operation lazily re-initializes the store with a fresh
provider built from the stored configuration (shown here for the memory
backend: each operation succeeds, answering from the fresh empty
provider, exactly the pre-close contract). -/
theorem close_not_terminal (s : ResourceStore)
    (hcfg : s.storageConfig.type = "memory") :
    (s.close).isInitialized = false ∧
    (∀ t i, (s.close).getResource t i =
      .ok ({ s.close with
               storage := some (.memory
                 (MemoryStore.construct s.storageConfig.nspace))
               isInitialized := true }, none)) ∧
    (∀ r, (s.close).createResource r =
      .ok { s.close with
              storage := some (.memory
                ((MemoryStore.construct s.storageConfig.nspace).create
                  (createMapKey r.getType r.getId) r))
              isInitialized := true }) ∧
    (∀ t, (s.close).listResources t =
      .ok ({ s.close with
               storage := some (.memory
                 (MemoryStore.construct s.storageConfig.nspace))
               isInitialized := true }, [])) ∧
    (∀ t i, (s.close).deleteResource t i =
      .ok ({ s.close with
               storage := some (.memory
                 (MemoryStore.construct s.storageConfig.nspace))
               isInitialized := true }, false)) := by
  have hclosed := close_isInitialized_false s
  have he : (s.close).ensureInitialized =
      .ok { s.close with
              storage := some (.memory
                (MemoryStore.construct s.storageConfig.nspace))
              isInitialized := true } := by
    simp [ResourceStore.ensureInitialized, hclosed, ResourceStore.initStore,
      StorageFactory.createStorage, close_storageConfig, hcfg, Except.map]
  refine ⟨hclosed, ?_, ?_, ?_, ?_⟩
  · intro t i
    rw [getResource_eq _ _ (MemoryStore.construct s.storageConfig.nspace) he rfl]
    rfl
  · intro r
    exact createResource_eq _ _ (MemoryStore.construct s.storageConfig.nspace)
      he rfl r
  · intro t
    rw [listResources_eq _ _ (MemoryStore.construct s.storageConfig.nspace) he rfl]
    rfl
  · intro t i
    rw [deleteResource_eq _ _ (MemoryStore.construct s.storageConfig.nspace) he rfl]
    rfl

/-- C6 witness: closing a concrete initialized populated store, then
reading, creating, listing and deleting through it. -/
theorem close_not_terminal_witness :
    (let s0 : ResourceStore :=
       { storage := some (.memory
           { store := [("task:1", ⟨"task", "1", 0, 1, 2, none⟩)], nspace := "" }),
         isInitialized := true, storageConfig := { type := "memory" } }
     (s0.close).isInitialized = false ∧
     (∀ t i, (s0.close).getResource t i =
       .ok ({ s0.close with
                storage := some (.memory
                  (MemoryStore.construct s0.storageConfig.nspace))
                isInitialized := true }, none)) ∧
     (∀ r, (s0.close).createResource r =
       .ok { s0.close with
               storage := some (.memory
                 ((MemoryStore.construct s0.storageConfig.nspace).create
                   (createMapKey r.getType r.getId) r))
               isInitialized := true }) ∧
     (∀ t, (s0.close).listResources t =
       .ok ({ s0.close with
                storage := some (.memory
                  (MemoryStore.construct s0.storageConfig.nspace))
                isInitialized := true }, [])) ∧
     (∀ t i, (s0.close).deleteResource t i =
       .ok ({ s0.close with
                storage := some (.memory
                  (MemoryStore.construct s0.storageConfig.nspace))
                isInitialized := true }, false))) :=
  close_not_terminal
    { storage := some (.memory
        { store := [("task:1", ⟨"task", "1", 0, 1, 2, none⟩)], nspace := "" }),
      isInitialized := true, storageConfig := { type := "memory" } } rfl

/-- C2 counterexample: `listResources` selects by the string prefix
`type + ":"`, so a store holding one resource of type `"a:b"` (id
`"c"`, stored key `"a:b:c"`) answers `listResources("a")` with that
resource — a resource of a *different* type — refuting "no resource of
any other type". -/
theorem listResources_prefix_collision :
    (let rab : Resource := ⟨"a:b", "c", 0, 1, 2, none⟩
     ((ResourceStore.mkStore none).createResource rab >>= fun s1 =>
        Except.map Prod.snd (s1.listResources "a")) = .ok [rab] ∧
     rab.getType ≠ "a") :=
  ⟨rfl, by decide⟩

/-- C2 (amended): on an initialized in-memory backend whose stored
types and queried type are colon-free, `listResources(t)` — whose list
prefix is `t + ":"` — returns without error exactly the stored
resources of type `t` (in insertion order), hence the empty sequence
when none exist; without the colon-freeness proviso a resource of type
`t ++ ":x"` would also be returned (see the counterexample). -/
theorem listResources_exact (s : ResourceStore) (ms : MemoryStore) (t : String)
    (hsto : s.storage = some (.memory ms)) (hinit : s.isInitialized = true)
    (hwf : ms.WFKeys) (ht : colonFree t = true)
    (hty : ∀ e ∈ ms.store, colonFree e.2.getType = true) :
    s.listResources t =
      .ok (s, (ms.store.filter (fun e => e.2.getType == t)).map Prod.snd) := by
  rw [listResources_eq s s ms (ensureInitialized_of_init s hinit) hsto t]
  unfold MemoryStore.list
  congr 2
  apply congrArg (List.map Prod.snd)
  apply List.filter_congr
  intro e hme
  rw [hwf e hme]
  exact strStartsWith_namespaceKey ms t e.2.getType e.2.getId ht (hty e hme)

/-- C2 witness: the amended theorem applied to a store holding one
`"item"` and one `"other"` resource. -/
theorem listResources_exact_witness :
    (let r1 : Resource := ⟨"item", "1", 0, 1, 2, none⟩
     let r2 : Resource := ⟨"other", "2", 3, 4, 5, none⟩
     let s0 : ResourceStore :=
       { storage := some (.memory
           { store := [("item:1", r1), ("other:2", r2)], nspace := "" }),
         isInitialized := true, storageConfig := { type := "memory" } }
     s0.listResources "item" = .ok (s0, [r1])) :=
  listResources_exact _
    { store := [("item:1", ⟨"item", "1", 0, 1, 2, none⟩),
                ("other:2", ⟨"other", "2", 3, 4, 5, none⟩)], nspace := "" }
    "item" rfl rfl (by decide) (by decide) (by decide)
